import Mathlib

/-!
# Verification of the countup widget controller

Shallow embedding of `src/main.rs` of emmabritton/countup: the `Countup`
state, its constructor `Countup::new`, the per-frame `update`, the key
handler `on_key_pressed`, and the pure decomposition of `render_split` and
`render_diff`.

Modelling conventions:
* Rust `f64` values (`next_inc_speed`, `next_inc`, `fixed_time_step`) are
  modelled as exact rationals `ℚ`. One divergence is tracked explicitly:
  `f64` division by zero yields infinity while `ℚ` division by zero yields
  `0`; the definition `rateChecked` models the divisor check so that the
  behaviour of `Countup::new` at `days = 0` can be examined.
* `calc_days_since(self.start_date)` reads the wall clock, so `update`
  takes the recomputed elapsed-day count `day_count` as an explicit input.
* `start_date` is an abstract timestamp, modelled as `ℤ`.
* Rendering side effects (pixel drawing) are out of scope; `render_split`
  and `render_diff` are modelled as the pure number decompositions the
  Rust functions compute before drawing.
-/

set_option autoImplicit false

/-- `const COUNT_TIME_PER_YEAR: f64 = 1.0;` -/
def COUNT_TIME_PER_YEAR : ℚ := 1

/-- The two key codes the widget registers (`action_keys` returns
`vec![Escape, Space]`), so these are the only codes `on_key_pressed` can
receive. -/
inductive VirtualKeyCode where
  | escape
  | space
deriving DecidableEq, Repr

/-- The `Countup` struct of `main.rs`. -/
structure Countup where
  days : ℕ
  start : String
  start_date : ℤ
  should_exit : Bool
  current_days : ℕ
  next_inc_speed : ℚ
  next_inc : ℚ
  diff_mode : Bool
deriving Repr

/-- `Countup::new`: `next_inc_speed` is
`((f_days / 365.0) * COUNT_TIME_PER_YEAR).max(COUNT_TIME_PER_YEAR) / f_days`;
all other fields start at their zero values. -/
def Countup.new (days : ℕ) (start : String) (start_date : ℤ) : Countup :=
  let f_days : ℚ := days
  let next_inc_speed : ℚ :=
    (max ((f_days / 365) * COUNT_TIME_PER_YEAR) COUNT_TIME_PER_YEAR) / f_days
  { start_date := start_date
    days := days
    start := start
    should_exit := false
    current_days := 0
    next_inc_speed := next_inc_speed
    next_inc := 0
    diff_mode := false }

/-- The rate expression of `Countup::new` with the division modelled as
failing on a zero divisor (as a check for an actual division by zero,
which in `f64` produces infinity): `none` exactly when the source
expression divides by zero. -/
def rateChecked (days : ℕ) : Option ℚ :=
  let f_days : ℚ := days
  if f_days = 0 then none
  else some ((max ((f_days / 365) * COUNT_TIME_PER_YEAR) COUNT_TIME_PER_YEAR) / f_days)

/-- The `while self.next_inc < 0.0 && self.current_days < self.days` loop
of `Countup::update`, acting on the pair `(current_days, next_inc)`: each
iteration increments `current_days` and adds `next_inc_speed` to
`next_inc`. -/
def incLoop (days : ℕ) (speed : ℚ) (cur : ℕ) (acc : ℚ) : ℕ × ℚ :=
  if _h : acc < 0 ∧ cur < days then
    incLoop days speed (cur + 1) (acc + speed)
  else
    (cur, acc)
termination_by days - cur
decreasing_by exact Nat.sub_succ_lt_self days cur _h.2

/-- `Countup::update`. `fixed_time_step` is `timing.fixed_time_step`;
`day_count` is the value `calc_days_since(self.start_date)` returns at the
time of the call (the wall clock is an external input). -/
def Countup.update (c : Countup) (fixed_time_step : ℚ) (day_count : ℕ) : Countup :=
  if c.current_days < c.days then
    let r := incLoop c.days c.next_inc_speed c.current_days c.next_inc
    { c with current_days := r.1, next_inc := r.2 - fixed_time_step }
  else
    if day_count ≠ c.days then
      { c with days := day_count, current_days := day_count }
    else
      c

/-- Iterated `update` with a fixed tick and a fixed recomputed day count
(the wall clock stays within one calendar day). -/
def Countup.updateN (c : Countup) (fixed_time_step : ℚ) (day_count : ℕ) : ℕ → Countup
  | 0 => c
  | n + 1 => (c.updateN fixed_time_step day_count n).update fixed_time_step day_count

/-- `Countup::on_key_pressed`: `Escape` sets the exit flag; otherwise
`Space` resets `current_days` and flips `diff_mode`. -/
def Countup.on_key_pressed (c : Countup) (keys : List VirtualKeyCode) : Countup :=
  if VirtualKeyCode.escape ∈ keys then
    { c with should_exit := true }
  else if VirtualKeyCode.space ∈ keys then
    { c with current_days := 0, diff_mode := !c.diff_mode }
  else
    c

/-- The numbers computed by `render_split`, as `(years, months, days)`:
`years = current_days / 365`, `remaining = current_days - years * 365`,
`months = remaining / 28`, `days = remaining - months * 28` (integer
division throughout, as in Rust `usize`). -/
def render_split (current_days : ℕ) : ℕ × ℕ × ℕ :=
  let years := current_days / 365
  let remaining := current_days - years * 365
  let months := remaining / 28
  let remaining2 := remaining - months * 28
  (years, months, remaining2)

/-- The numbers computed by `render_diff`, as `(days, weeks, months,
years)`: each is an independent integer division of `current_days`. -/
def render_diff (current_days : ℕ) : ℕ × ℕ × ℕ × ℕ :=
  let weeks := current_days / 7
  let months := current_days / 28
  let years := current_days / 365
  (current_days, weeks, months, years)

/-- The rate the spec text of C3 prescribes:
`max(ceil(total_days/365) * K, K) / total_days`, with the ceiling of the
integer division `total_days / 365` written as `(days + 364) / 365` in
`ℕ`. Stated from the words of the spec, for comparison with
`Countup.new`. -/
def specCeilRate (days : ℕ) : ℚ :=
  (max ((((days + 364) / 365 : ℕ) : ℚ) * COUNT_TIME_PER_YEAR) COUNT_TIME_PER_YEAR) / days

/-- One animating tick as the spec text of C4 describes it: first the
accumulator is decremented by `rate * tick`, then while it is below zero
and `cur < days`, one day is consumed and `1.0` is added back. Stated from
the words of the spec, for comparison with `Countup.update`. -/
def specAccStep (days : ℕ) (rate tick : ℚ) (cur : ℕ) (acc : ℚ) : ℕ × ℚ :=
  incLoop days 1 cur (acc - rate * tick)

/-! ## Helper lemmas about the increment loop -/

theorem incLoop_step (days : ℕ) (speed : ℚ) (cur : ℕ) (acc : ℚ)
    (h : acc < 0 ∧ cur < days) :
    incLoop days speed cur acc = incLoop days speed (cur + 1) (acc + speed) := by
  rw [incLoop]
  simp [h]

theorem incLoop_exit (days : ℕ) (speed : ℚ) (cur : ℕ) (acc : ℚ)
    (h : ¬(acc < 0 ∧ cur < days)) :
    incLoop days speed cur acc = (cur, acc) := by
  rw [incLoop]
  simp [h]

/-- Main facts about one run of the increment loop: `current_days` only
grows, stays at most `days`, the final accumulator accounts exactly one
`speed` per consumed day, and on exit with `current_days < days` the
accumulator is nonnegative. -/
theorem incLoop_spec (speed : ℚ) :
    ∀ (n days cur : ℕ) (acc : ℚ), days - cur ≤ n → cur ≤ days →
      cur ≤ (incLoop days speed cur acc).1 ∧
      (incLoop days speed cur acc).1 ≤ days ∧
      (incLoop days speed cur acc).2 =
        acc + (((incLoop days speed cur acc).1 - cur : ℕ) : ℚ) * speed ∧
      ((incLoop days speed cur acc).1 < days → 0 ≤ (incLoop days speed cur acc).2) := by
  intro n
  induction n with
  | zero =>
    intro days cur acc hn hc
    have hcd : cur = days := by omega
    rw [incLoop_exit days speed cur acc (by simp [hcd])]
    refine ⟨le_refl _, hcd.le, by simp, ?_⟩
    intro hlt
    exact absurd hlt (by simp [hcd])
  | succ n ih =>
    intro days cur acc hn hc
    by_cases h : acc < 0 ∧ cur < days
    · rw [incLoop_step days speed cur acc h]
      obtain ⟨h1, h2, h3, h4⟩ :=
        ih days (cur + 1) (acc + speed) (by omega) (by omega)
      refine ⟨by omega, h2, ?_, h4⟩
      rw [h3]
      have hnat : (incLoop days speed (cur + 1) (acc + speed)).1 - cur =
          ((incLoop days speed (cur + 1) (acc + speed)).1 - (cur + 1)) + 1 := by
        omega
      rw [hnat]
      push_cast
      ring
    · rw [incLoop_exit days speed cur acc h]
      refine ⟨le_refl _, hc, by simp, ?_⟩
      intro hlt
      rcases not_and_or.mp h with h' | h'
      · simpa using not_lt.mp h'
      · exact absurd hlt h'

/-- `incLoop_spec` instantiated with large enough fuel. -/
theorem incLoop_facts (days : ℕ) (speed : ℚ) (cur : ℕ) (acc : ℚ) (hc : cur ≤ days) :
    cur ≤ (incLoop days speed cur acc).1 ∧
    (incLoop days speed cur acc).1 ≤ days ∧
    (incLoop days speed cur acc).2 =
      acc + (((incLoop days speed cur acc).1 - cur : ℕ) : ℚ) * speed ∧
    ((incLoop days speed cur acc).1 < days → 0 ≤ (incLoop days speed cur acc).2) :=
  incLoop_spec speed (days - cur) days cur acc le_rfl hc

/-- A nonnegative accumulator makes the loop exit immediately. -/
theorem incLoop_of_nonneg (days : ℕ) (speed : ℚ) (cur : ℕ) (acc : ℚ) (h : 0 ≤ acc) :
    incLoop days speed cur acc = (cur, acc) :=
  incLoop_exit days speed cur acc (by simp [not_lt.mpr h])

/-! ## Helper lemmas about `update` -/

/-- `update` never changes `start`, `start_date`, `should_exit`,
`diff_mode` or `next_inc_speed`. -/
theorem update_frame (c : Countup) (t : ℚ) (dc : ℕ) :
    (c.update t dc).start = c.start ∧ (c.update t dc).start_date = c.start_date ∧
    (c.update t dc).should_exit = c.should_exit ∧ (c.update t dc).diff_mode = c.diff_mode ∧
    (c.update t dc).next_inc_speed = c.next_inc_speed := by
  unfold Countup.update
  split
  · exact ⟨rfl, rfl, rfl, rfl, rfl⟩
  · split
    · exact ⟨rfl, rfl, rfl, rfl, rfl⟩
    · exact ⟨rfl, rfl, rfl, rfl, rfl⟩

/-- The invariant `current_days ≤ days` is preserved by `update`, for any
tick and any recomputed day count. -/
theorem update_le (c : Countup) (t : ℚ) (dc : ℕ) (h : c.current_days ≤ c.days) :
    (c.update t dc).current_days ≤ (c.update t dc).days := by
  unfold Countup.update
  split
  · next hlt =>
    exact (incLoop_facts c.days c.next_inc_speed c.current_days c.next_inc h).2.1
  · split
    · exact le_refl _
    · exact h

/-- `update` with an unchanged day count never decreases `current_days`
(given the invariant). -/
theorem update_mono (c : Countup) (t : ℚ) (h : c.current_days ≤ c.days) :
    c.current_days ≤ (c.update t c.days).current_days := by
  unfold Countup.update
  split
  · next hlt =>
    exact (incLoop_facts c.days c.next_inc_speed c.current_days c.next_inc h).1
  · simp

/-- `update` with an unchanged day count does not change `days`. -/
theorem update_days_const (c : Countup) (t : ℚ) :
    (c.update t c.days).days = c.days := by
  unfold Countup.update
  split
  · rfl
  · simp

/-- In the idle state (`current_days = days`) an `update` with an
unchanged day count is a no-op. -/
theorem update_idle_noop (c : Countup) (t : ℚ) (h : c.current_days = c.days) :
    c.update t c.days = c := by
  unfold Countup.update
  rw [if_neg (by omega), if_neg (by simp)]

/-! ## Trajectory of a freshly constructed controller -/

/-- Master invariant of the trajectory of `Countup.new days l sd` under
repeated updates with a fixed tick and an unchanged day count: `days` and
`next_inc_speed` are constant, `current_days ≤ days`, and as long as the
animation has not finished, the accumulator satisfies the exact
conservation law `next_inc = current_days * speed - k * tick` and (after
the first update) stays at least `-tick`. -/
theorem new_traj (days : ℕ) (l : String) (sd : ℤ) (t : ℚ) (k : ℕ) :
    ((Countup.new days l sd).updateN t days k).days = days ∧
    ((Countup.new days l sd).updateN t days k).next_inc_speed =
      (Countup.new days l sd).next_inc_speed ∧
    ((Countup.new days l sd).updateN t days k).current_days ≤ days ∧
    (((Countup.new days l sd).updateN t days k).current_days = days ∨
      (((Countup.new days l sd).updateN t days k).current_days < days ∧
        ((Countup.new days l sd).updateN t days k).next_inc =
          (((Countup.new days l sd).updateN t days k).current_days : ℚ) *
            (Countup.new days l sd).next_inc_speed - (k : ℚ) * t ∧
        (1 ≤ k → -t ≤ ((Countup.new days l sd).updateN t days k).next_inc))) := by
  induction k with
  | zero =>
    refine ⟨rfl, rfl, Nat.zero_le _, ?_⟩
    by_cases h0 : days = 0
    · exact Or.inl (by simp [Countup.new, h0, Countup.updateN])
    · refine Or.inr ⟨?_, by simp [Countup.new, Countup.updateN], by omega⟩
      have : (Countup.new days l sd).current_days = 0 := rfl
      simp [Countup.updateN, this]
      omega
  | succ k ih =>
    obtain ⟨hd, hs, hle, hcase⟩ := ih
    set c := (Countup.new days l sd).updateN t days k with hc
    have hstep : (Countup.new days l sd).updateN t days (k + 1) = c.update t days := rfl
    rcases hcase with hidle | ⟨hlt, hacc, hlo⟩
    · -- frozen: idle update with unchanged day count is a no-op
      have hnoop : c.update t days = c := by
        rw [← hd]
        exact update_idle_noop c t (by omega)
      rw [hstep, hnoop]
      exact ⟨hd, hs, hle, Or.inl hidle⟩
    · -- animating branch
      have hguard : c.current_days < c.days := by rw [hd]; exact hlt
      have hr := incLoop_facts c.days c.next_inc_speed c.current_days c.next_inc (le_of_lt hguard)
      set r := incLoop c.days c.next_inc_speed c.current_days c.next_inc with hrdef
      have hupd : c.update t days =
          { c with current_days := r.1, next_inc := r.2 - t } := by
        unfold Countup.update
        rw [if_pos hguard]
      rw [hstep, hupd]
      obtain ⟨hr1, hr2, hr3, hr4⟩ := hr
      refine ⟨hd, hs, by simpa [hd] using hr2, ?_⟩
      by_cases hfin : r.1 = days
      · exact Or.inl hfin
      · have hrlt : r.1 < days := by rw [hd] at hr2; omega
        refine Or.inr ⟨hrlt, ?_, ?_⟩
        · -- conservation: r.2 - t = r.1 * speed - (k+1) * t
          have hcast : ((r.1 - c.current_days : ℕ) : ℚ) =
              (r.1 : ℚ) - (c.current_days : ℚ) := by
            exact Nat.cast_sub hr1
          rw [hr3, hcast, hacc, hs]
          push_cast
          ring
        · intro _
          have : 0 ≤ r.2 := hr4 (by rw [hd]; exact hrlt)
          simp only []
          linarith

/-- The increment rate computed by `new` is nonnegative. -/
theorem new_speed_nonneg (days : ℕ) (l : String) (sd : ℤ) :
    0 ≤ (Countup.new days l sd).next_inc_speed := by
  unfold Countup.new
  refine div_nonneg ?_ (Nat.cast_nonneg days)
  exact le_trans zero_le_one (le_max_right _ COUNT_TIME_PER_YEAR)

/-- With a positive fixed tick, the fresh controller eventually catches up:
`current_days` reaches `days` after finitely many updates. -/
theorem new_eventually (days : ℕ) (l : String) (sd : ℤ) (t : ℚ) (ht : 0 < t) :
    ∃ n, ((Countup.new days l sd).updateN t days n).current_days = days := by
  have hs : 0 ≤ (Countup.new days l sd).next_inc_speed := new_speed_nonneg days l sd
  set s := (Countup.new days l sd).next_inc_speed with hsdef
  set x : ℚ := (days : ℚ) * s / t with hxdef
  refine ⟨Nat.ceil x + 2, ?_⟩
  by_contra hne
  obtain ⟨hd, hsp, hle, hcase⟩ := new_traj days l sd t (Nat.ceil x + 2)
  rcases hcase with h | ⟨hlt, hacc, hlo⟩
  · exact hne h
  have h1 : -t ≤ ((Countup.new days l sd).updateN t days (Nat.ceil x + 2)).next_inc :=
    hlo (by omega)
  rw [hacc] at h1
  have hcur : (((Countup.new days l sd).updateN t days (Nat.ceil x + 2)).current_days : ℚ) ≤
      (days : ℚ) := by
    exact_mod_cast hle
  have h2 : ((Nat.ceil x + 2 : ℕ) : ℚ) * t - t ≤ (days : ℚ) * s := by
    have hmul := mul_le_mul_of_nonneg_right hcur hs
    linarith
  have h3 : ((Nat.ceil x + 2 : ℕ) : ℚ) - 1 ≤ x := by
    rw [hxdef, le_div_iff₀ ht]
    linarith
  have h4 : x ≤ (Nat.ceil x : ℚ) := Nat.le_ceil x
  have h5 : ((Nat.ceil x + 2 : ℕ) : ℚ) = (Nat.ceil x : ℚ) + 2 := by push_cast; ring
  linarith

/-- Along the fresh trajectory, `current_days` never decreases from one
update to the next. -/
theorem new_mono_step (days : ℕ) (l : String) (sd : ℤ) (t : ℚ) (k : ℕ) :
    ((Countup.new days l sd).updateN t days k).current_days ≤
      ((Countup.new days l sd).updateN t days (k + 1)).current_days := by
  obtain ⟨hd, _, hle, _⟩ := new_traj days l sd t k
  set c := (Countup.new days l sd).updateN t days k with hc
  have hinv : c.current_days ≤ c.days := by omega
  have hstep : (Countup.new days l sd).updateN t days (k + 1) = c.update t days := rfl
  rw [hstep, ← hd]
  exact update_mono c t hinv

/-! ## Sample states for concrete checks -/

/-- A sample mid-animation state: 3 of 5 days shown, accumulator
negative. -/
def sampleState : Countup :=
  { days := 5
    start := ""
    start_date := 0
    should_exit := false
    current_days := 3
    next_inc_speed := 1 / 5
    next_inc := -1 / 2
    diff_mode := false }

/-! ## Claims -/

/-- C1: for every `total_days ≥ 1`, repeated `update` calls with a fixed
positive tick (and an unchanged wall-clock day count) eventually make
`current_days` exactly `days`; at no point does `current_days` exceed
`days`, and across successive calls `current_days` is monotonically
non-decreasing. -/
theorem C1_animation_reaches_total (days : ℕ) (_hdays : 1 ≤ days) (l : String) (sd : ℤ)
    (t : ℚ) (ht : 0 < t) :
    (∃ n, ((Countup.new days l sd).updateN t days n).current_days = days) ∧
    (∀ k, ((Countup.new days l sd).updateN t days k).current_days ≤
      ((Countup.new days l sd).updateN t days k).days) ∧
    (∀ k, ((Countup.new days l sd).updateN t days k).current_days ≤
      ((Countup.new days l sd).updateN t days (k + 1)).current_days) := by
  refine ⟨new_eventually days l sd t ht, ?_, fun k => new_mono_step days l sd t k⟩
  intro k
  obtain ⟨hd, _, hle, _⟩ := new_traj days l sd t k
  omega

/-- Witness for C1 at `total_days = 2`, tick `1`. -/
theorem C1_animation_reaches_total_witness :
    (∃ n, ((Countup.new 2 "" 0).updateN 1 2 n).current_days = 2) ∧
    (∀ k, ((Countup.new 2 "" 0).updateN 1 2 k).current_days ≤
      ((Countup.new 2 "" 0).updateN 1 2 k).days) ∧
    (∀ k, ((Countup.new 2 "" 0).updateN 1 2 k).current_days ≤
      ((Countup.new 2 "" 0).updateN 1 2 (k + 1)).current_days) :=
  C1_animation_reaches_total 2 (by norm_num) "" 0 1 (by norm_num)

/-- C2: the invariant `current_days ≤ days` holds for the freshly
constructed state and is preserved by every `update` (any tick, any
recomputed day count) and every `on_key_pressed` (any key set, including
the toggle reset to `0`). -/
theorem C2_invariant (days : ℕ) (l : String) (sd : ℤ) :
    (Countup.new days l sd).current_days ≤ (Countup.new days l sd).days ∧
    (∀ (c : Countup) (t : ℚ) (dc : ℕ), c.current_days ≤ c.days →
      (c.update t dc).current_days ≤ (c.update t dc).days) ∧
    (∀ (c : Countup) (keys : List VirtualKeyCode), c.current_days ≤ c.days →
      (c.on_key_pressed keys).current_days ≤ (c.on_key_pressed keys).days) := by
  refine ⟨Nat.zero_le _, fun c t dc h => update_le c t dc h, ?_⟩
  intro c keys h
  unfold Countup.on_key_pressed
  split
  · exact h
  · split
    · exact Nat.zero_le _
    · exact h

/-- Witness for C2: the preservation clauses applied to a concrete
animating update and a concrete toggle press. -/
theorem C2_invariant_witness :
    ((Countup.new 5 "" 0).update 1 5).current_days ≤
      ((Countup.new 5 "" 0).update 1 5).days ∧
    (sampleState.on_key_pressed [VirtualKeyCode.space]).current_days ≤
      (sampleState.on_key_pressed [VirtualKeyCode.space]).days :=
  ⟨(C2_invariant 5 "" 0).2.1 (Countup.new 5 "" 0) 1 5 (Nat.zero_le _),
   (C2_invariant 5 "" 0).2.2 sampleState [VirtualKeyCode.space] (by norm_num [sampleState])⟩

/-- C3 as stated fails on the code: at `total_days = 400` the rate
computed by `Countup::new` is `(400/365)/400 = 1/365` (exact division),
while the spec formula with the ceiling, `max(ceil(400/365) * K, K)/400`,
gives `2/400 = 1/200`. -/
theorem C3_rate_counterexample :
    (Countup.new 400 "" 0).next_inc_speed ≠ specCeilRate 400 := by
  have h1 : (Countup.new 400 "" 0).next_inc_speed = 1 / 365 := by
    simp only [Countup.new, COUNT_TIME_PER_YEAR]
    rw [max_eq_left (by norm_num)]
    norm_num
  have h2 : specCeilRate 400 = 1 / 200 := by
    simp only [specCeilRate, COUNT_TIME_PER_YEAR]
    norm_num
  rw [h1, h2]
  norm_num

/-- C3 amended: for every `total_days ≥ 1`, `new` sets the rate to
`max((total_days/365) * K, K) / total_days` with exact (not ceiling)
division of `total_days` by `365`, where `K = COUNT_TIME_PER_YEAR`. -/
theorem C3_rate_amended (days : ℕ) (_hdays : 1 ≤ days) (l : String) (sd : ℤ) :
    (Countup.new days l sd).next_inc_speed =
      (max (((days : ℚ) / 365) * COUNT_TIME_PER_YEAR) COUNT_TIME_PER_YEAR) / (days : ℚ) :=
  rfl

/-- Witness for the amended C3 at `total_days = 400`. -/
theorem C3_rate_amended_witness :
    (Countup.new 400 "" 0).next_inc_speed =
      (max ((((400 : ℕ) : ℚ) / 365) * COUNT_TIME_PER_YEAR) COUNT_TIME_PER_YEAR) /
        ((400 : ℕ) : ℚ) :=
  C3_rate_amended 400 (by norm_num) "" 0

/-- C4 as stated fails on the code: from the fresh state with
`total_days = 2` (rate `1/2`) and tick `1`, the code consumes no day in
the first update (the while loop runs before the subtraction and the
accumulator starts at `0`; the subtraction is by the tick alone), while
the spec step (subtract `rate * tick` first, then consume a day and add
back `1.0` whenever below zero) consumes one day. -/
theorem C4_acc_counterexample :
    ((Countup.new 2 "" 0).update 1 2).current_days ≠
      (specAccStep 2 (Countup.new 2 "" 0).next_inc_speed 1
        (Countup.new 2 "" 0).current_days (Countup.new 2 "" 0).next_inc).1 := by
  have hs : (Countup.new 2 "" 0).next_inc_speed = 1 / 2 := by
    simp only [Countup.new, COUNT_TIME_PER_YEAR]
    norm_num
  have hl : ((Countup.new 2 "" 0).update 1 2).current_days = 0 := by
    unfold Countup.update
    rw [if_pos (by norm_num [Countup.new])]
    simp only [Countup.new]
    rw [incLoop_exit _ _ _ _ (by norm_num)]
  have hr : (specAccStep 2 (Countup.new 2 "" 0).next_inc_speed 1
      (Countup.new 2 "" 0).current_days (Countup.new 2 "" 0).next_inc).1 = 1 := by
    unfold specAccStep
    rw [hs]
    have hcur : (Countup.new 2 "" 0).current_days = 0 := rfl
    have hacc : (Countup.new 2 "" 0).next_inc = 0 := rfl
    rw [hcur, hacc]
    rw [incLoop_step _ _ _ _ (by norm_num)]
    rw [incLoop_exit _ _ _ _ (by norm_num)]
  rw [hl, hr]
  norm_num

/-- C4 amended: in every animating update (`current_days < days`) the
day-steps are consumed first, while the accumulator is below zero and
`current_days < days`, each consumed day adding `next_inc_speed` (not
`1.0`) back; afterwards the accumulator is decremented by the fixed tick
alone (not by `rate * tick`). Consequences proved: `current_days` moves
up by the number of consumed days and stays at most `days`, the net
accumulator change is `consumed * next_inc_speed - tick`, and with a
nonnegative accumulator no day is consumed at all. -/
theorem C4_acc_amended (c : Countup) (t : ℚ) (dc : ℕ) (h : c.current_days < c.days) :
    c.current_days ≤ (c.update t dc).current_days ∧
    (c.update t dc).current_days ≤ c.days ∧
    (c.update t dc).next_inc =
      c.next_inc +
        (((c.update t dc).current_days - c.current_days : ℕ) : ℚ) * c.next_inc_speed - t ∧
    (0 ≤ c.next_inc →
      (c.update t dc).current_days = c.current_days ∧
      (c.update t dc).next_inc = c.next_inc - t) := by
  have hfacts :=
    incLoop_facts c.days c.next_inc_speed c.current_days c.next_inc (le_of_lt h)
  obtain ⟨h1, h2, h3, _⟩ := hfacts
  have hupd : c.update t dc =
      { c with
        current_days := (incLoop c.days c.next_inc_speed c.current_days c.next_inc).1
        next_inc := (incLoop c.days c.next_inc_speed c.current_days c.next_inc).2 - t } := by
    unfold Countup.update
    rw [if_pos h]
  rw [hupd]
  refine ⟨h1, h2, ?_, ?_⟩
  · rw [h3]
  · intro hnn
    rw [incLoop_of_nonneg c.days c.next_inc_speed c.current_days c.next_inc hnn]
    exact ⟨rfl, rfl⟩

/-- Witness for the amended C4 on a concrete animating state. -/
theorem C4_acc_amended_witness :
    sampleState.current_days ≤ (sampleState.update 1 5).current_days ∧
    (sampleState.update 1 5).current_days ≤ sampleState.days ∧
    (sampleState.update 1 5).next_inc =
      sampleState.next_inc +
        (((sampleState.update 1 5).current_days - sampleState.current_days : ℕ) : ℚ) *
          sampleState.next_inc_speed - 1 ∧
    (0 ≤ sampleState.next_inc →
      (sampleState.update 1 5).current_days = sampleState.current_days ∧
      (sampleState.update 1 5).next_inc = sampleState.next_inc - 1) :=
  C4_acc_amended sampleState 1 5 (by norm_num [sampleState])

/-- C5 as stated fails on the code: `Countup::new` has no special case
for `total_days = 0`. The divisor of the rate computation is `0` there,
so the division by zero does occur (in `f64` it yields infinity);
`rateChecked` is the same expression with a checked divisor and returns
`none` at `0`. -/
theorem C5_no_special_case_counterexample : rateChecked 0 = none := by decide

/-- C5 amended: constructed with `total_days = 0` the controller is
immediately idle (`current_days = days = 0`) and `current_days` stays `0`
under every update while the recomputed day count stays `0`; but the rate
computation is not special-cased: its divisor is `0` (the `f64` division
yields infinity), harmlessly, since the rate is never read while
`current_days < days` fails. -/
theorem C5_zero_days_amended (l : String) (sd : ℤ) (t : ℚ) (n : ℕ) :
    ((Countup.new 0 l sd).updateN t 0 n).current_days = 0 ∧
    ((Countup.new 0 l sd).updateN t 0 n).days = 0 ∧
    (Countup.new 0 l sd).current_days = (Countup.new 0 l sd).days ∧
    rateChecked 0 = none := by
  have hconst : ∀ m, (Countup.new 0 l sd).updateN t 0 m = Countup.new 0 l sd := by
    intro m
    induction m with
    | zero => rfl
    | succ m ih =>
      have hstep : (Countup.new 0 l sd).updateN t 0 (m + 1) =
          ((Countup.new 0 l sd).updateN t 0 m).update t 0 := rfl
      rw [hstep, ih]
      have hz : (Countup.new 0 l sd).days = 0 := rfl
      calc (Countup.new 0 l sd).update t 0
          = (Countup.new 0 l sd).update t (Countup.new 0 l sd).days := by rw [hz]
        _ = Countup.new 0 l sd := update_idle_noop _ t rfl
  refine ⟨by rw [hconst]; rfl, by rw [hconst]; rfl, rfl, by decide⟩

/-- C6 as stated fails on the code: when Escape and Space are pressed
together, the `else if` makes Escape shadow Space, so `current_days` is
not reset and `diff_mode` is not flipped (only the exit flag is set). -/
theorem C6_both_keys_counterexample :
    (sampleState.on_key_pressed
      [VirtualKeyCode.escape, VirtualKeyCode.space]).should_exit = true ∧
    (sampleState.on_key_pressed
      [VirtualKeyCode.escape, VirtualKeyCode.space]).current_days = 3 ∧
    (sampleState.on_key_pressed
      [VirtualKeyCode.escape, VirtualKeyCode.space]).diff_mode = false ∧
    ¬ ((sampleState.on_key_pressed
        [VirtualKeyCode.escape, VirtualKeyCode.space]).current_days = 0 ∧
      (sampleState.on_key_pressed
        [VirtualKeyCode.escape, VirtualKeyCode.space]).diff_mode = !sampleState.diff_mode) := by
  have hkey : VirtualKeyCode.escape ∈ [VirtualKeyCode.escape, VirtualKeyCode.space] := by
    simp
  have hres : sampleState.on_key_pressed [VirtualKeyCode.escape, VirtualKeyCode.space] =
      { sampleState with should_exit := true } := by
    unfold Countup.on_key_pressed
    rw [if_pos hkey]
  rw [hres]
  simp [sampleState]

/-- C6 amended: if Escape is present the exit flag is set (Escape takes
priority and suppresses the toggle); otherwise, if Space is present,
`current_days` resets to `0` and `diff_mode` flips, and a second such
press flips the mode back and resets again. -/
theorem C6_on_key_amended (c : Countup) (keys : List VirtualKeyCode) :
    (VirtualKeyCode.escape ∈ keys →
      c.on_key_pressed keys = { c with should_exit := true }) ∧
    (VirtualKeyCode.escape ∉ keys → VirtualKeyCode.space ∈ keys →
      c.on_key_pressed keys = { c with current_days := 0, diff_mode := !c.diff_mode }) ∧
    (VirtualKeyCode.escape ∉ keys → VirtualKeyCode.space ∈ keys →
      ((c.on_key_pressed keys).on_key_pressed keys).diff_mode = c.diff_mode ∧
      ((c.on_key_pressed keys).on_key_pressed keys).current_days = 0) := by
  refine ⟨?_, ?_, ?_⟩
  · intro he
    unfold Countup.on_key_pressed
    rw [if_pos he]
  · intro he hs
    unfold Countup.on_key_pressed
    rw [if_neg he, if_pos hs]
  · intro he hs
    unfold Countup.on_key_pressed
    rw [if_neg he, if_pos hs, if_neg he, if_pos hs]
    simp

/-- Witness for the amended C6: a single toggle press on a concrete state
and the double-press round trip. -/
theorem C6_on_key_amended_witness :
    sampleState.on_key_pressed [VirtualKeyCode.space] =
      { sampleState with current_days := 0, diff_mode := !sampleState.diff_mode } ∧
    ((sampleState.on_key_pressed [VirtualKeyCode.space]).on_key_pressed
      [VirtualKeyCode.space]).diff_mode = sampleState.diff_mode ∧
    ((sampleState.on_key_pressed [VirtualKeyCode.space]).on_key_pressed
      [VirtualKeyCode.space]).current_days = 0 :=
  ⟨(C6_on_key_amended sampleState [VirtualKeyCode.space]).2.1 (by decide) (by decide),
   (C6_on_key_amended sampleState [VirtualKeyCode.space]).2.2 (by decide) (by decide)⟩

/-- C7: for every state with `current_days = days` before an `update`
call, `current_days = days` still holds after it, for every tick and every
recomputed day count (the rollover branch updates both fields to the same
value together); and `on_key_pressed` without the Space key also preserves
the equality, so only the toggle key re-enters the animating state. -/
theorem C7_idle_stays_idle (c : Countup) (t : ℚ) (dc : ℕ) (h : c.current_days = c.days) :
    (c.update t dc).current_days = (c.update t dc).days ∧
    (∀ keys, VirtualKeyCode.space ∉ keys →
      (c.on_key_pressed keys).current_days = (c.on_key_pressed keys).days) := by
  constructor
  · unfold Countup.update
    rw [if_neg (by omega)]
    split
    · rfl
    · exact h
  · intro keys hk
    unfold Countup.on_key_pressed
    by_cases he : VirtualKeyCode.escape ∈ keys
    · rw [if_pos he]
      exact h
    · rw [if_neg he, if_neg hk]
      exact h

/-- Witness for C7 on a concrete idle state with a rolled-over day count
and the Escape key. -/
theorem C7_idle_stays_idle_witness :
    ((Countup.new 0 "" 0).update 1 1).current_days =
      ((Countup.new 0 "" 0).update 1 1).days ∧
    (∀ keys, VirtualKeyCode.space ∉ keys →
      ((Countup.new 0 "" 0).on_key_pressed keys).current_days =
        ((Countup.new 0 "" 0).on_key_pressed keys).days) :=
  C7_idle_stays_idle (Countup.new 0 "" 0) 1 1 rfl

/-- C8: in the idle state (`current_days = days`), an `update` whose
recomputed day count differs from `days` snaps both `days` and
`current_days` to that count in the same call, touching nothing else; an
`update` with an unchanged count leaves the state unchanged. -/
theorem C8_rollover_snap (c : Countup) (t : ℚ) (dc : ℕ) (h : c.current_days = c.days) :
    (dc ≠ c.days → c.update t dc = { c with days := dc, current_days := dc }) ∧
    (dc = c.days → c.update t dc = c) := by
  constructor
  · intro hne
    unfold Countup.update
    rw [if_neg (by omega), if_pos hne]
  · intro heq
    unfold Countup.update
    rw [if_neg (by omega), if_neg (by simp [heq])]

/-- Witness for C8: the fresh zero-day state snapping to a rolled-over
count of `1`, and staying unchanged at a count of `0`. -/
theorem C8_rollover_snap_witness :
    (Countup.new 0 "" 0).update 1 1 =
      { Countup.new 0 "" 0 with days := 1, current_days := 1 } ∧
    (Countup.new 0 "" 0).update 1 0 = Countup.new 0 "" 0 :=
  ⟨((C8_rollover_snap (Countup.new 0 "" 0) 1 1 rfl).1 (by decide)),
   ((C8_rollover_snap (Countup.new 0 "" 0) 1 0 rfl).2 rfl)⟩

/-- C9 as stated fails on the code at `current_days = 364`: `render_split`
yields years `0`, months `13`, days `0`, so the month component is not
`< 13`. -/
theorem C9_months_counterexample :
    render_split 364 = (0, 13, 0) ∧ ¬ (render_split 364).2.1 < 13 := by
  constructor <;> decide

/-- C9 amended: for every `current_days = d`, `render_split` computes
`years = d / 365`, `remaining = d - years * 365`, `months = remaining / 28`
and `days = remaining - months * 28`, so `d = years * 365 + months * 28 +
days` with `days < 28` and `months ≤ 13` (the month component reaches `13`
at `remaining = 364`); `d = 400` yields years `1`, months `1`, days `7`. -/
theorem C9_split_amended (d : ℕ) :
    d = (render_split d).1 * 365 + (render_split d).2.1 * 28 + (render_split d).2.2 ∧
    (render_split d).2.2 < 28 ∧
    (render_split d).2.1 ≤ 13 ∧
    render_split 400 = (1, 1, 7) := by
  refine ⟨?_, ?_, ?_, by decide⟩ <;>
    · simp only [render_split]
      omega

/-- C10: a toggle press (Space without Escape) changes only
`current_days` (reset to `0`) and `diff_mode` (flipped); the accumulator
`next_inc` (even when negative, carried into the restarted animation),
the rate `next_inc_speed`, `days`, the label `start`, the timestamp
`start_date` and the exit flag are all unchanged. -/
theorem C10_toggle_frame (c : Countup) (keys : List VirtualKeyCode)
    (he : VirtualKeyCode.escape ∉ keys) (hs : VirtualKeyCode.space ∈ keys) :
    (c.on_key_pressed keys).next_inc = c.next_inc ∧
    (c.on_key_pressed keys).next_inc_speed = c.next_inc_speed ∧
    (c.on_key_pressed keys).days = c.days ∧
    (c.on_key_pressed keys).start = c.start ∧
    (c.on_key_pressed keys).start_date = c.start_date ∧
    (c.on_key_pressed keys).should_exit = c.should_exit ∧
    (c.on_key_pressed keys).current_days = 0 ∧
    (c.on_key_pressed keys).diff_mode = !c.diff_mode := by
  have hres : c.on_key_pressed keys =
      { c with current_days := 0, diff_mode := !c.diff_mode } := by
    unfold Countup.on_key_pressed
    rw [if_neg he, if_pos hs]
  rw [hres]
  exact ⟨rfl, rfl, rfl, rfl, rfl, rfl, rfl, rfl⟩

/-- Witness for C10 on a state whose accumulator is negative (`-1/2`),
showing the leftover accumulator is carried, not reset. -/
theorem C10_toggle_frame_witness :
    (sampleState.on_key_pressed [VirtualKeyCode.space]).next_inc =
      sampleState.next_inc ∧
    (sampleState.on_key_pressed [VirtualKeyCode.space]).next_inc_speed =
      sampleState.next_inc_speed ∧
    (sampleState.on_key_pressed [VirtualKeyCode.space]).days = sampleState.days ∧
    (sampleState.on_key_pressed [VirtualKeyCode.space]).start = sampleState.start ∧
    (sampleState.on_key_pressed [VirtualKeyCode.space]).start_date =
      sampleState.start_date ∧
    (sampleState.on_key_pressed [VirtualKeyCode.space]).should_exit =
      sampleState.should_exit ∧
    (sampleState.on_key_pressed [VirtualKeyCode.space]).current_days = 0 ∧
    (sampleState.on_key_pressed [VirtualKeyCode.space]).diff_mode =
      !sampleState.diff_mode :=
  C10_toggle_frame sampleState [VirtualKeyCode.space] (by decide) (by decide)
